import Mathlib

/-!
Verification development for the dental booking service
(src/booking-service.js).  Strings are modelled as lists of
characters; the phone helpers, the mock slot generator, the
result classifier and the browser-automation booking flow are
embedded as executable Lean functions below and the spec's
claims are settled against them.
-/

set_option maxRecDepth 4000

abbrev Msg := List Char

/-! ### Phone normalizer and formatter (booking-service.js lines 50-70) -/

/-- Embedding of the regex replace in normalizePhone:
phone.replace of all non-digits by the empty string. -/
def stripDigits (s : Msg) : Msg := s.filter Char.isDigit

/-- Embedding of normalizePhone (booking-service.js lines 50-59). -/
def normalizePhone (phone : Msg) : Msg :=
  if phone = [] then []
  else
    let digits := stripDigits phone
    if digits.length = 11 ∧ digits.head? = some '1' then digits.drop 1
    else if digits.length ≥ 10 then digits.drop (digits.length - 10)
    else digits

/-- The template literal used by formatPhone on a 10-digit
canonical number. -/
def renderPhone (n : Msg) : Msg :=
  ('(' :: n.take 3) ++ (')' :: ' ' :: (n.drop 3).take 3) ++ ('-' :: n.drop 6)

/-- Embedding of formatPhone (booking-service.js lines 64-70). -/
def formatPhone (phone : Msg) : Msg :=
  let normalized := normalizePhone phone
  if normalized.length = 10 then renderPhone normalized
  else phone

theorem normalizePhone_eq (phone : Msg) :
    normalizePhone phone =
      (if (stripDigits phone).length = 11 ∧ (stripDigits phone).head? = some '1'
       then (stripDigits phone).drop 1
       else if (stripDigits phone).length ≥ 10
       then (stripDigits phone).drop ((stripDigits phone).length - 10)
       else stripDigits phone) := by
  by_cases h : phone = []
  · subst h; decide
  · simp [normalizePhone, h]

theorem formatPhone_of_len10 (phone : Msg) (h : (normalizePhone phone).length = 10) :
    formatPhone phone = renderPhone (normalizePhone phone) := by
  simp [formatPhone, h]

theorem formatPhone_of_ne10 (phone : Msg) (h : ¬ (normalizePhone phone).length = 10) :
    formatPhone phone = phone := by
  simp [formatPhone, h]

/-- Claim C6: for inputs whose digit-stripped form has at least 10 digits,
normalizePhone returns exactly 10 digits -- the stripped form minus its
leading digit when it is exactly 11 digits starting with a "1", and the
rightmost 10 digits otherwise; for inputs with fewer than 10 digits the
stripped form is returned unchanged. -/
theorem normalizePhone_spec (phone : Msg) :
    ((stripDigits phone).length ≥ 10 →
      (normalizePhone phone).length = 10 ∧
      normalizePhone phone =
        (if (stripDigits phone).length = 11 ∧ (stripDigits phone).head? = some '1'
         then (stripDigits phone).drop 1
         else (stripDigits phone).drop ((stripDigits phone).length - 10))) ∧
    ((stripDigits phone).length < 10 → normalizePhone phone = stripDigits phone) := by
  rw [normalizePhone_eq]
  constructor
  · intro hge
    by_cases h11 : (stripDigits phone).length = 11 ∧ (stripDigits phone).head? = some '1'
    · rw [if_pos h11, if_pos h11]
      refine ⟨?_, rfl⟩
      rw [List.length_drop, h11.1]
    · rw [if_neg h11, if_neg h11, if_pos hge]
      refine ⟨?_, rfl⟩
      rw [List.length_drop]
      omega
  · intro hlt
    have h11 : ¬ ((stripDigits phone).length = 11 ∧ (stripDigits phone).head? = some '1') := by
      intro h; omega
    rw [if_neg h11, if_neg (by omega)]

theorem normalizePhone_spec_witness :
    normalizePhone "1-480-555-1234".toList = "4805551234".toList ∧
    normalizePhone "555-01-23".toList = "5550123".toList := by
  constructor
  · exact ((normalizePhone_spec "1-480-555-1234".toList).1 (by decide)).2.trans (by decide)
  · exact (normalizePhone_spec "555-01-23".toList).2 (by decide)

/-- Claim C7: when the canonical form of the input has exactly 10 digits
AAABBBCCCC, formatPhone renders "(AAA) BBB-CCCC"; otherwise formatPhone
returns the original input unchanged. -/
theorem formatPhone_spec (phone : Msg) :
    ((normalizePhone phone).length = 10 →
      formatPhone phone =
        ('(' :: (normalizePhone phone).take 3) ++
        (')' :: ' ' :: ((normalizePhone phone).drop 3).take 3) ++
        ('-' :: (normalizePhone phone).drop 6)) ∧
    ((normalizePhone phone).length ≠ 10 → formatPhone phone = phone) := by
  constructor
  · intro h
    rw [formatPhone_of_len10 phone h, renderPhone]
  · intro h
    exact formatPhone_of_ne10 phone h

theorem formatPhone_spec_witness :
    formatPhone "4805551234".toList = "(480) 555-1234".toList ∧
    formatPhone "555-01-23".toList = "555-01-23".toList := by
  constructor
  · exact ((formatPhone_spec "4805551234".toList).1 (by decide)).trans (by decide)
  · exact (formatPhone_spec "555-01-23".toList).2 (by decide)

theorem normalizePhone_digits (phone : Msg) :
    ∀ c ∈ normalizePhone phone, c.isDigit = true := by
  intro c hc
  rw [normalizePhone_eq] at hc
  have hc' : c ∈ stripDigits phone := by
    split at hc
    · exact List.mem_of_mem_drop hc
    · split at hc
      · exact List.mem_of_mem_drop hc
      · exact hc
  exact (List.mem_filter.mp hc').2

theorem stripDigits_of_digits (l : Msg) (h : ∀ c ∈ l, c.isDigit = true) :
    stripDigits l = l :=
  List.filter_eq_self.mpr h

theorem stripDigits_renderPhone (n : Msg) (h : ∀ c ∈ n, c.isDigit = true) :
    stripDigits (renderPhone n) = n := by
  have h3 : ∀ c ∈ n.take 3, c.isDigit = true := fun c hc => h c (List.mem_of_mem_take hc)
  have h36 : ∀ c ∈ (n.drop 3).take 3, c.isDigit = true :=
    fun c hc => h c (List.mem_of_mem_drop (List.mem_of_mem_take hc))
  have h6 : ∀ c ∈ n.drop 6, c.isDigit = true := fun c hc => h c (List.mem_of_mem_drop hc)
  have hsplit : n.take 3 ++ ((n.drop 3).take 3 ++ n.drop 6) = n := by
    have hdd : (n.drop 3).drop 3 = n.drop 6 := by
      rw [List.drop_drop]
    rw [← hdd, List.take_append_drop, List.take_append_drop]
  calc stripDigits (renderPhone n)
      = stripDigits (n.take 3) ++ (stripDigits ((n.drop 3).take 3) ++ stripDigits (n.drop 6)) := by
        simp [renderPhone, stripDigits, List.filter_append]
    _ = n.take 3 ++ ((n.drop 3).take 3 ++ n.drop 6) := by
        rw [stripDigits_of_digits _ h3, stripDigits_of_digits _ h36, stripDigits_of_digits _ h6]
    _ = n := hsplit

theorem normalizePhone_renderPhone (phone : Msg) (h : (normalizePhone phone).length = 10) :
    normalizePhone (renderPhone (normalizePhone phone)) = normalizePhone phone := by
  have hs : stripDigits (renderPhone (normalizePhone phone)) = normalizePhone phone :=
    stripDigits_renderPhone _ (normalizePhone_digits phone)
  rw [normalizePhone_eq, hs, h]
  norm_num

theorem normalize_format (phone : Msg) :
    normalizePhone (formatPhone phone) = normalizePhone phone := by
  by_cases h : (normalizePhone phone).length = 10
  · rw [formatPhone_of_len10 phone h, normalizePhone_renderPhone phone h]
  · rw [formatPhone_of_ne10 phone h]

/-- Claim C9: formatting never changes the canonical phone derived from an
input (normalizePhone of formatPhone x equals normalizePhone x), and
consequently formatPhone is idempotent. -/
theorem normalize_format_idempotent (x : Msg) :
    normalizePhone (formatPhone x) = normalizePhone x ∧
    formatPhone (formatPhone x) = formatPhone x := by
  refine ⟨normalize_format x, ?_⟩
  by_cases h : (normalizePhone x).length = 10
  · have hlen : (normalizePhone (formatPhone x)).length = 10 := by
      rw [normalize_format x, h]
    rw [formatPhone_of_len10 _ hlen, normalize_format x, ← formatPhone_of_len10 x h]
  · rw [formatPhone_of_ne10 x h]
    exact formatPhone_of_ne10 x h

/-! ### Time slots (booking-service.js lines 75-116) -/

structure TimeSlot where
  id : Msg
  time : Msg
  available : Bool
deriving DecidableEq, Repr

/-- The fixed times array inside generateMockSlots. -/
def mockTimes : List Msg :=
  ["09:00".toList, "09:30".toList, "10:00".toList, "10:30".toList, "11:00".toList,
   "14:00".toList, "14:30".toList, "15:00".toList, "15:30".toList, "16:00".toList]

/-- Embedding of generateMockSlots (booking-service.js lines 103-116):
the forEach loop pushes one slot per time, with id built from the index. -/
def generateMockSlots (date : Msg) : List TimeSlot :=
  mockTimes.enum.map fun p =>
    { id := "slot-".toList ++ (toString p.1).toList, time := p.2, available := true }

/-- Embedding of getTimeSlots (booking-service.js lines 75-98): the remote
axios call either yields data or throws; a throw of any kind is caught and
answered with the mock slots. -/
def getTimeSlots (remote : Except Msg (List TimeSlot)) (date : Msg) : List TimeSlot :=
  match remote with
  | Except.ok data => data
  | Except.error _ => generateMockSlots date

/-- Claim C8: whenever the remote availability call fails, getTimeSlots
returns (rather than throws) the fixed fallback list of exactly 10 slots,
all available, whose times are the half-hour times 09:00-16:00 with the
midday gap. -/
theorem getTimeSlots_fallback (msg : Msg) (date : Msg) :
    getTimeSlots (Except.error msg) date = generateMockSlots date ∧
    (getTimeSlots (Except.error msg) date).length = 10 ∧
    (getTimeSlots (Except.error msg) date).all (fun s => s.available) = true ∧
    (getTimeSlots (Except.error msg) date).map (fun s => s.time) = mockTimes :=
  ⟨rfl, rfl, rfl, rfl⟩

/-- Claim C10: generateMockSlots ignores its date argument -- any two dates
produce the identical slot list. -/
theorem generateMockSlots_date_independent (d1 d2 : Msg) :
    generateMockSlots d1 = generateMockSlots d2 := rfl

/-! ### Result classifier (booking-service.js lines 235-258) -/

/-- Character-list model of the JS String.prototype.startsWith test
used below to model includes. -/
def strStarts : Msg → Msg → Bool
  | [], _ => true
  | _ :: _, [] => false
  | a :: as, b :: bs => a = b && strStarts as bs

/-- Model of the case-sensitive JS String.prototype.includes: sub occurs
somewhere in the text. -/
def strContains (sub : Msg) : Msg → Bool
  | [] => strStarts sub []
  | c :: rest => strStarts sub (c :: rest) || strContains sub rest

/-- Characters matched by the regex class of colon, whitespace and hash
in the confirmation pattern. -/
def sepChar (c : Char) : Bool :=
  c = ':' || c = '#' || c = ' ' || c = '\t' || c = '\n' || c = '\r' || c = '\x0b' || c = '\x0c'

/-- Characters matched by the capture class of the confirmation pattern
(letters either case because of the i flag, digits, dash). -/
def tokenChar (c : Char) : Bool :=
  (c.isUpper || c.isLower || c.isDigit) || c = '-'

/-- Case-insensitive literal match at the head of the text; the label is
given lowercase.  Returns the remaining text on success. -/
def ciStarts : Msg → Msg → Option Msg
  | [], s => some s
  | _ :: _, [] => none
  | l :: ls, c :: cs => if c.toLower = l then ciStarts ls cs else none

/-- After a label matched, consume the separator class greedily and then
require a non-empty run of token characters (the capture group). -/
def grabToken (rest : Msg) : Option Msg :=
  let tok := (rest.dropWhile sepChar).takeWhile tokenChar
  if tok = [] then none else some tok

def tryLabel (lbl s : Msg) : Option Msg :=
  match ciStarts lbl s with
  | none => none
  | some rest => grabToken rest

/-- Model of pageText.match with the confirmation regex of line 248:
scan positions left to right, at each position try the three alternatives
in order, and return the capture group of the first full match. -/
def matchConfirmation : Msg → Option Msg
  | [] => none
  | c :: cs =>
    match tryLabel "confirmation".toList (c :: cs) with
    | some tok => some tok
    | none =>
      match tryLabel "conf#".toList (c :: cs) with
      | some tok => some tok
      | none =>
        match tryLabel "reference".toList (c :: cs) with
        | some tok => some tok
        | none => matchConfirmation cs

structure BookingResult where
  success : Bool
  confirmationNumber : Option Msg
  message : Msg
  rawResult : Option Msg
deriving DecidableEq, Repr

/-- Embedding of the classification block of bookAppointment
(booking-service.js lines 235-258), as a function of the page text. -/
def classify (pageText : Msg) : BookingResult :=
  let base : BookingResult :=
    { success := false, confirmationNumber := none, message := [],
      rawResult := some (pageText.take 500) }
  if strContains "confirmation".toList pageText || strContains "confirmed".toList pageText ||
      strContains "success".toList pageText then
    { base with success := true,
                message := "Appointment booked successfully".toList,
                confirmationNumber := matchConfirmation pageText }
  else if strContains "error".toList pageText || strContains "failed".toList pageText then
    { base with message := "Booking failed - form validation error".toList }
  else
    { base with success := true,
                message := "Form submitted - please verify in MaxAssist".toList }

/-- Claim C4: the classifier checks the positive tokens first, then the
negative tokens, and defaults to optimistic success: success is true exactly
when a positive token occurs or no negative token occurs, and the message
is the booked, validation-failure or unverified message accordingly;
concrete instances exercise each branch. -/
theorem classifier_priority (t : Msg) :
    ((classify t).success =
      ((strContains "confirmation".toList t || strContains "confirmed".toList t ||
        strContains "success".toList t) ||
       !(strContains "error".toList t || strContains "failed".toList t)) ∧
     (classify t).message =
      (if strContains "confirmation".toList t || strContains "confirmed".toList t ||
          strContains "success".toList t
       then "Appointment booked successfully".toList
       else if strContains "error".toList t || strContains "failed".toList t
       then "Booking failed - form validation error".toList
       else "Form submitted - please verify in MaxAssist".toList)) ∧
    (classify "confirmed but error".toList).success = true ∧
    (classify "error only".toList).success = false ∧
    (classify "all good".toList).success = true := by
  refine ⟨⟨?_, ?_⟩, by decide, by decide, by decide⟩ <;>
  · simp only [classify]
    by_cases hpos : (strContains "confirmation".toList t || strContains "confirmed".toList t ||
        strContains "success".toList t) = true
    · simp only [if_pos hpos, hpos]
      rfl
    · have hb : (strContains "confirmation".toList t || strContains "confirmed".toList t ||
          strContains "success".toList t) = false := by
        revert hpos
        cases strContains "confirmation".toList t || strContains "confirmed".toList t ||
          strContains "success".toList t <;> simp
      by_cases hneg : (strContains "error".toList t || strContains "failed".toList t) = true
      · simp only [if_neg hpos, if_pos hneg, hb, hneg]
        rfl
      · have hn : (strContains "error".toList t || strContains "failed".toList t) = false := by
          revert hneg
          cases strContains "error".toList t || strContains "failed".toList t <;> simp
        simp only [if_neg hpos, if_neg hneg, hb, hn]
        rfl

theorem grabToken_shape (r tok : Msg) (h : grabToken r = some tok) :
    tok ≠ [] ∧ tok.all tokenChar = true := by
  unfold grabToken at h
  by_cases he : ((r.dropWhile sepChar).takeWhile tokenChar) = []
  · simp [he] at h
  · simp only [he, if_neg, if_false] at h
    cases h
    refine ⟨he, ?_⟩
    rw [List.all_eq_true]
    intro c hc
    exact List.mem_takeWhile_imp hc

theorem tryLabel_shape (lbl s tok : Msg) (h : tryLabel lbl s = some tok) :
    tok ≠ [] ∧ tok.all tokenChar = true := by
  unfold tryLabel at h
  rcases hc : ciStarts lbl s with _ | rest
  · rw [hc] at h; cases h
  · rw [hc] at h; exact grabToken_shape rest tok h

theorem matchConfirmation_shape (t tok : Msg) (h : matchConfirmation t = some tok) :
    tok ≠ [] ∧ tok.all tokenChar = true := by
  induction t with
  | nil => cases h
  | cons c cs ih =>
    rw [matchConfirmation] at h
    rcases h1 : tryLabel "confirmation".toList (c :: cs) with _ | tok1
    · rw [h1] at h
      rcases h2 : tryLabel "conf#".toList (c :: cs) with _ | tok2
      · rw [h2] at h
        rcases h3 : tryLabel "reference".toList (c :: cs) with _ | tok3
        · rw [h3] at h
          exact ih h
        · rw [h3] at h
          cases h
          exact tryLabel_shape _ _ _ h3
      · rw [h2] at h
        cases h
        exact tryLabel_shape _ _ _ h2
    · rw [h1] at h
      cases h
      exact tryLabel_shape _ _ _ h1

/-- Page text used by the end-to-end confirmation example. -/
def confirmText : Msg := "Thank you! confirmation #ABC-123 saved".toList

/-- Claim C5: in the positive branch the classifier's confirmation number is
exactly the result of the label-separator-code pattern match, it stays unset
when that match produces nothing, any extracted token is a non-empty run of
alphanumeric-or-dash characters, and page text containing
"confirmation #ABC-123" yields success with token "ABC-123". -/
theorem classifier_confirmation_token (t : Msg) :
    ((strContains "confirmation".toList t || strContains "confirmed".toList t ||
      strContains "success".toList t) = true →
      (classify t).confirmationNumber = matchConfirmation t) ∧
    (matchConfirmation t = none → (classify t).confirmationNumber = none) ∧
    (∀ tok, matchConfirmation t = some tok → tok ≠ [] ∧ tok.all tokenChar = true) ∧
    (classify confirmText).success = true ∧
    (classify confirmText).confirmationNumber = some "ABC-123".toList := by
  refine ⟨?_, ?_, fun tok h => matchConfirmation_shape t tok h, by decide, by decide⟩
  · intro h
    simp only [classify, if_pos h]
  · intro h
    simp only [classify]
    by_cases hpos : (strContains "confirmation".toList t || strContains "confirmed".toList t ||
        strContains "success".toList t) = true
    · simp only [if_pos hpos, h]
    · by_cases hneg : (strContains "error".toList t || strContains "failed".toList t) = true
      · simp only [if_neg hpos, if_pos hneg]
      · simp only [if_neg hpos, if_neg hneg]

theorem classifier_confirmation_token_witness :
    (classify "confirmed now".toList).confirmationNumber =
      matchConfirmation "confirmed now".toList ∧
    ("ABC".toList ≠ [] ∧ "ABC".toList.all tokenChar = true) := by
  constructor
  · exact (classifier_confirmation_token "confirmed now".toList).1 (by decide)
  · exact (classifier_confirmation_token "confirmation ABC".toList).2.2.1 "ABC".toList (by decide)

/-! ### Browser-automation booking flow (booking-service.js lines 122-273)

The page and browser are modelled by an oracle that says, for each awaited
interaction of the source in program order, whether it succeeds or throws,
which optional form controls are present, what the phone field reads back,
which time-slot buttons exist and what the final page text is.  Running the
flow produces the outcome together with the trace of observable events
(fills, the phone read-back, clicks, launch and close). -/

inductive FormField where
  | firstName | lastName | phone | email | date
deriving DecidableEq, Repr

inductive Ev where
  | launched
  | navigated
  | selectedType (v : Msg)
  | filled (f : FormField) (v : Msg)
  | readBack (v : Msg)
  | clickedSlot (label : Msg)
  | clickedSubmit
  | closed
deriving DecidableEq, Repr

/-- Error-short-circuiting state monad over the event trace: the shallow
embedding of one awaited automation step sequence. -/
def M (α : Type) : Type := List Ev → Except Msg α × List Ev

instance : Monad M where
  pure a := fun tr => (Except.ok a, tr)
  bind m f := fun tr =>
    match m tr with
    | (Except.ok a, tr') => f a tr'
    | (Except.error e, tr') => (Except.error e, tr')

theorem M_pure_apply {α : Type} (a : α) (tr : List Ev) :
    (pure a : M α) tr = (Except.ok a, tr) := rfl

theorem M_bind_apply {α β : Type} (m : M α) (f : α → M β) (tr : List Ev) :
    (m >>= f) tr =
      (match m tr with
       | (Except.ok a, tr') => f a tr'
       | (Except.error e, tr') => (Except.error e, tr')) := rfl

/-- Record an observable event. -/
def emit (e : Ev) : M Unit := fun tr => (Except.ok (), tr ++ [e])

/-- An awaited call that either throws the injected error or succeeds,
recording the given event. -/
def act (err : Option Msg) (e : Ev) : M Unit := fun tr =>
  match err with
  | some m => (Except.error m, tr)
  | none => (Except.ok (), tr ++ [e])

/-- An awaited call with no observable event of its own. -/
def actSilent (err : Option Msg) : M Unit := fun tr =>
  match err with
  | some m => (Except.error m, tr)
  | none => (Except.ok (), tr)

/-- The inputValue read-back of the phone field: either throws or yields
the value the field currently holds, recording the read. -/
def readPhoneStep (r : Except Msg Msg) : M Msg := fun tr =>
  match r with
  | Except.ok v => (Except.ok v, tr ++ [Ev.readBack v])
  | Except.error e => (Except.error e, tr)

/-- The page.textContent read at the end of the flow. -/
def getVal (r : Except Msg Msg) : M Msg := fun tr => (r, tr)

structure Oracle where
  launchErr : Option Msg
  newContextErr : Option Msg
  newPageErr : Option Msg
  gotoErr : Option Msg
  typeSelectPresent : Bool
  selectErr : Option Msg
  firstNamePresent : Bool
  fillFirstNameErr : Option Msg
  lastNamePresent : Bool
  fillLastNameErr : Option Msg
  phonePresent : Bool
  phoneClearErr : Option Msg
  phoneFillErr : Option Msg
  phoneRead : Except Msg Msg
  phoneClear2Err : Option Msg
  phoneFill2Err : Option Msg
  emailPresent : Bool
  fillEmailErr : Option Msg
  datePresent : Bool
  fillDateErr : Option Msg
  slotsQueryErr : Option Msg
  slotTexts : List Msg
  clickSlotErr : Option Msg
  submitPresent : Bool
  clickSubmitErr : Option Msg
  contentErr : Option Msg
  pageTextRes : Except Msg Msg
deriving Repr

structure PatientData where
  firstName : Msg
  lastName : Msg
  phone : Msg
  email : Option Msg
  date : Msg
  time : Msg
  appointmentType : Option Msg
deriving Repr

/-- The APPOINTMENT_TYPES lookup (booking-service.js lines 39-44) with the
default of line 154. -/
def apptTypeCode (k : Msg) : Msg :=
  if k = "emergency-exam".toList then "1".toList
  else if k = "new-patient".toList then "2".toList
  else if k = "checkup".toList then "3".toList
  else if k = "cleaning".toList then "4".toList
  else "1".toList

/-- Steps of bookAppointment up to and including the last-name fill
(booking-service.js lines 133-172): launch, newContext, newPage, goto,
optional appointment-type select, optional first- and last-name fills. -/
def bookPrefix (o : Oracle) (pd : PatientData) : M Unit :=
  act o.launchErr Ev.launched >>= fun _ =>
  actSilent o.newContextErr >>= fun _ =>
  actSilent o.newPageErr >>= fun _ =>
  act o.gotoErr Ev.navigated >>= fun _ =>
  (match pd.appointmentType with
   | some k =>
     if o.typeSelectPresent then act o.selectErr (Ev.selectedType (apptTypeCode k))
     else pure ()
   | none => pure ()) >>= fun _ =>
  (if o.firstNamePresent then act o.fillFirstNameErr (Ev.filled FormField.firstName pd.firstName)
   else pure ()) >>= fun _ =>
  (if o.lastNamePresent then act o.fillLastNameErr (Ev.filled FormField.lastName pd.lastName)
   else pure ())

/-- The phone block of bookAppointment (booking-service.js lines 175-196):
clear, fill the canonical phone, read the field back, and on a strictly
shorter read-back clear once more and fill the formatted phone, with no
second read-back. -/
def phoneStep (o : Oracle) (normalizedPhone formattedPhone : Msg) : M Unit :=
  if o.phonePresent then
    act o.phoneClearErr (Ev.filled FormField.phone []) >>= fun _ =>
    act o.phoneFillErr (Ev.filled FormField.phone normalizedPhone) >>= fun _ =>
    readPhoneStep o.phoneRead >>= fun entered =>
    if entered.length < normalizedPhone.length then
      act o.phoneClear2Err (Ev.filled FormField.phone []) >>= fun _ =>
      act o.phoneFill2Err (Ev.filled FormField.phone formattedPhone)
    else pure ()
  else pure ()

/-- The time-slot loop of bookAppointment (booking-service.js lines
214-222): click the first button whose text contains the requested time,
then stop. -/
def slotLoop (texts : List Msg) (time : Msg) (clickErr : Option Msg) : M Unit :=
  match texts with
  | [] => pure ()
  | t :: rest =>
    if strContains time t then act clickErr (Ev.clickedSlot t)
    else slotLoop rest time clickErr

/-- Steps of bookAppointment after the phone block (booking-service.js
lines 199-260): optional email and date fills, the slot loop, optional
submit click, the page reads and the classification. -/
def bookSuffix (o : Oracle) (pd : PatientData) : M BookingResult :=
  (match pd.email with
   | some em =>
     if o.emailPresent then act o.fillEmailErr (Ev.filled FormField.email em)
     else pure ()
   | none => pure ()) >>= fun _ =>
  (if o.datePresent then act o.fillDateErr (Ev.filled FormField.date pd.date)
   else pure ()) >>= fun _ =>
  actSilent o.slotsQueryErr >>= fun _ =>
  slotLoop o.slotTexts pd.time o.clickSlotErr >>= fun _ =>
  (if o.submitPresent then act o.clickSubmitErr Ev.clickedSubmit
   else pure ()) >>= fun _ =>
  actSilent o.contentErr >>= fun _ =>
  getVal o.pageTextRes >>= fun txt =>
  pure (classify txt)

/-- The whole try block of bookAppointment. -/
def bookTry (o : Oracle) (pd : PatientData) : M BookingResult :=
  bookPrefix o pd >>= fun _ =>
  phoneStep o (normalizePhone pd.phone) (formatPhone pd.phone) >>= fun _ =>
  bookSuffix o pd

/-- Embedding of bookAppointment (booking-service.js lines 122-273): the
try body runs from an empty trace; the catch turns a thrown error into a
failed outcome with the message "Booking error: " followed by the error
details; the finally closes the browser exactly when the launch assignment
completed, that is when the launch step did not throw. -/
def bookAppointment (o : Oracle) (pd : PatientData) : BookingResult × List Ev :=
  match bookTry o pd [] with
  | (Except.ok res, tr) =>
      (res, if o.launchErr = none then tr ++ [Ev.closed] else tr)
  | (Except.error e, tr) =>
      ({ success := false, confirmationNumber := none,
         message := "Booking error: ".toList ++ e, rawResult := none },
       if o.launchErr = none then tr ++ [Ev.closed] else tr)

/-! ### Trace lemmas for the booking flow -/

/-- Every event the computation appends to the trace satisfies P. -/
def EmitsOnly {α : Type} (m : M α) (P : Ev → Prop) : Prop :=
  ∀ tr, ∃ ex, (m tr).2 = tr ++ ex ∧ ∀ e ∈ ex, P e

theorem emitsOnly_pure {α : Type} (a : α) (P : Ev → Prop) :
    EmitsOnly (pure a : M α) P :=
  fun tr => ⟨[], by simp [M_pure_apply], by simp⟩

theorem emitsOnly_bind {α β : Type} {m : M α} {f : α → M β} {P : Ev → Prop}
    (hm : EmitsOnly m P) (hf : ∀ a, EmitsOnly (f a) P) :
    EmitsOnly (m >>= f) P := by
  intro tr
  obtain ⟨ex1, h1, hp1⟩ := hm tr
  rw [M_bind_apply]
  cases hmtr : m tr with
  | mk r tr' =>
    have htr' : tr' = tr ++ ex1 := by rw [hmtr] at h1; exact h1
    cases r with
    | ok a =>
      obtain ⟨ex2, h2, hp2⟩ := hf a tr'
      refine ⟨ex1 ++ ex2, ?_, ?_⟩
      · rw [h2, htr', List.append_assoc]
      · intro e he
        rcases List.mem_append.mp he with h | h
        · exact hp1 e h
        · exact hp2 e h
    | error err => exact ⟨ex1, htr', hp1⟩

theorem emitsOnly_act {err : Option Msg} {e : Ev} {P : Ev → Prop} (hP : P e) :
    EmitsOnly (act err e) P := by
  intro tr
  cases err with
  | none => exact ⟨[e], rfl, by simpa using hP⟩
  | some m => exact ⟨[], by simp [act], by simp⟩

theorem emitsOnly_actSilent (err : Option Msg) (P : Ev → Prop) :
    EmitsOnly (actSilent err) P := by
  intro tr
  cases err with
  | none => exact ⟨[], by simp [actSilent], by simp⟩
  | some m => exact ⟨[], by simp [actSilent], by simp⟩

theorem emitsOnly_readPhoneStep {r : Except Msg Msg} {P : Ev → Prop}
    (hP : ∀ v, P (Ev.readBack v)) :
    EmitsOnly (readPhoneStep r) P := by
  intro tr
  cases r with
  | ok v => exact ⟨[Ev.readBack v], rfl, by simpa using hP v⟩
  | error e => exact ⟨[], by simp [readPhoneStep], by simp⟩

theorem emitsOnly_getVal (r : Except Msg Msg) (P : Ev → Prop) :
    EmitsOnly (getVal r) P :=
  fun tr => ⟨[], by simp [getVal], by simp⟩

theorem emitsOnly_ite {c : Prop} [Decidable c] {m1 m2 : M Unit} {P : Ev → Prop}
    (h1 : EmitsOnly m1 P) (h2 : EmitsOnly m2 P) :
    EmitsOnly (if c then m1 else m2) P := by
  by_cases hc : c
  · rw [if_pos hc]; exact h1
  · rw [if_neg hc]; exact h2

theorem emitsOnly_slotLoop (texts : List Msg) (time : Msg) (clickErr : Option Msg)
    {P : Ev → Prop} (hP : ∀ t, P (Ev.clickedSlot t)) :
    EmitsOnly (slotLoop texts time clickErr) P := by
  induction texts with
  | nil => exact emitsOnly_pure () P
  | cons t rest ih =>
    rw [slotLoop]
    exact emitsOnly_ite (emitsOnly_act (hP t)) ih

theorem emitsOnly_bookPrefix (o : Oracle) (pd : PatientData) {P : Ev → Prop}
    (hl : P Ev.launched) (hn : P Ev.navigated)
    (hs : ∀ v, P (Ev.selectedType v))
    (hf1 : ∀ v, P (Ev.filled FormField.firstName v))
    (hf2 : ∀ v, P (Ev.filled FormField.lastName v)) :
    EmitsOnly (bookPrefix o pd) P := by
  unfold bookPrefix
  refine emitsOnly_bind (emitsOnly_act hl) (fun _ => ?_)
  refine emitsOnly_bind (emitsOnly_actSilent _ _) (fun _ => ?_)
  refine emitsOnly_bind (emitsOnly_actSilent _ _) (fun _ => ?_)
  refine emitsOnly_bind (emitsOnly_act hn) (fun _ => ?_)
  refine emitsOnly_bind ?_ (fun _ => ?_)
  · cases pd.appointmentType with
    | some k => exact emitsOnly_ite (emitsOnly_act (hs _)) (emitsOnly_pure () P)
    | none => exact emitsOnly_pure () P
  · refine emitsOnly_bind
      (emitsOnly_ite (emitsOnly_act (hf1 _)) (emitsOnly_pure () P)) (fun _ => ?_)
    exact emitsOnly_ite (emitsOnly_act (hf2 _)) (emitsOnly_pure () P)

theorem emitsOnly_phoneStep (o : Oracle) (n f : Msg) {P : Ev → Prop}
    (hp : ∀ v, P (Ev.filled FormField.phone v))
    (hr : ∀ v, P (Ev.readBack v)) :
    EmitsOnly (phoneStep o n f) P := by
  unfold phoneStep
  refine emitsOnly_ite ?_ (emitsOnly_pure () P)
  refine emitsOnly_bind (emitsOnly_act (hp _)) (fun _ => ?_)
  refine emitsOnly_bind (emitsOnly_act (hp _)) (fun _ => ?_)
  refine emitsOnly_bind (emitsOnly_readPhoneStep hr) (fun entered => ?_)
  exact emitsOnly_ite
    (emitsOnly_bind (emitsOnly_act (hp _)) (fun _ => emitsOnly_act (hp _)))
    (emitsOnly_pure () P)

theorem emitsOnly_bookSuffix (o : Oracle) (pd : PatientData) {P : Ev → Prop}
    (he : ∀ v, P (Ev.filled FormField.email v))
    (hd : ∀ v, P (Ev.filled FormField.date v))
    (hc : ∀ t, P (Ev.clickedSlot t))
    (hsub : P Ev.clickedSubmit) :
    EmitsOnly (bookSuffix o pd) P := by
  unfold bookSuffix
  refine emitsOnly_bind ?_ (fun _ => ?_)
  · cases pd.email with
    | some em => exact emitsOnly_ite (emitsOnly_act (he _)) (emitsOnly_pure () P)
    | none => exact emitsOnly_pure () P
  · refine emitsOnly_bind
      (emitsOnly_ite (emitsOnly_act (hd _)) (emitsOnly_pure () P)) (fun _ => ?_)
    refine emitsOnly_bind (emitsOnly_actSilent _ _) (fun _ => ?_)
    refine emitsOnly_bind (emitsOnly_slotLoop _ _ _ hc) (fun _ => ?_)
    refine emitsOnly_bind
      (emitsOnly_ite (emitsOnly_act hsub) (emitsOnly_pure () P)) (fun _ => ?_)
    refine emitsOnly_bind (emitsOnly_actSilent _ _) (fun _ => ?_)
    refine emitsOnly_bind (emitsOnly_getVal _ _) (fun txt => ?_)
    exact emitsOnly_pure _ P

theorem bookTry_noClose (o : Oracle) (pd : PatientData) :
    EmitsOnly (bookTry o pd) (fun e => e ≠ Ev.closed) := by
  unfold bookTry
  refine emitsOnly_bind
    (emitsOnly_bookPrefix o pd (fun h => Ev.noConfusion h) (fun h => Ev.noConfusion h)
      (fun v h => Ev.noConfusion h) (fun v h => Ev.noConfusion h) (fun v h => Ev.noConfusion h))
    (fun _ => ?_)
  refine emitsOnly_bind
    (emitsOnly_phoneStep o _ _ (fun v h => Ev.noConfusion h) (fun v h => Ev.noConfusion h))
    (fun _ => ?_)
  exact emitsOnly_bookSuffix o pd (fun v h => Ev.noConfusion h) (fun v h => Ev.noConfusion h)
    (fun t h => Ev.noConfusion h) (fun h => Ev.noConfusion h)

/-- An oracle on which every interaction succeeds; the phone field reads
back a truncated value and the final page text carries a confirmation. -/
def allOkOracle : Oracle :=
  { launchErr := none, newContextErr := none, newPageErr := none, gotoErr := none,
    typeSelectPresent := true, selectErr := none,
    firstNamePresent := true, fillFirstNameErr := none,
    lastNamePresent := true, fillLastNameErr := none,
    phonePresent := true, phoneClearErr := none, phoneFillErr := none,
    phoneRead := Except.ok "480555".toList, phoneClear2Err := none, phoneFill2Err := none,
    emailPresent := true, fillEmailErr := none,
    datePresent := true, fillDateErr := none,
    slotsQueryErr := none, slotTexts := ["10:00 slot".toList],
    clickSlotErr := none, submitPresent := true, clickSubmitErr := none,
    contentErr := none, pageTextRes := Except.ok "confirmation #ABC-123".toList }

/-- The booking request of the test suite (test-booking.js). -/
def testPatient : PatientData :=
  { firstName := "Test".toList, lastName := "Patient".toList, phone := "4805551234".toList,
    email := some "test@example.com".toList, date := "2026-02-24".toList,
    time := "10:00".toList, appointmentType := some "emergency-exam".toList }

/-- Claim C2 counterexample: with a failure injected at the browser launch
itself, the teardown call is never observed -- its count in the trace is 0,
not the claimed exactly-once. -/
theorem teardown_launch_failure_cex :
    ¬ ((bookAppointment { allOkOracle with launchErr := some "launch failed".toList }
        testPatient).2.count Ev.closed = 1) := by decide

/-- Claim C2 (amended): the teardown call is observed exactly once whenever
the browser launch step succeeded -- in particular exactly once for a
failure injected at any later step (navigate, each fill, time-slot click,
submit, classification) -- and zero times when the launch itself fails,
since the browser variable was never assigned. -/
theorem teardown_once_after_launch (o : Oracle) (pd : PatientData) :
    (bookAppointment o pd).2.count Ev.closed = (if o.launchErr = none then 1 else 0) := by
  obtain ⟨ex, h2, hp⟩ := bookTry_noClose o pd []
  have hcount : ex.count Ev.closed = 0 :=
    List.count_eq_zero.mpr (fun h => hp _ h rfl)
  cases hb : bookTry o pd [] with
  | mk r tr =>
    have htr : tr = ex := by
      have h2' := h2
      rw [hb] at h2'
      simpa using h2'
    subst htr
    by_cases hl : o.launchErr = none
    · cases r with
      | ok res =>
        simp only [bookAppointment, hb, if_pos hl]
        rw [List.count_append]
        simp [hcount]
      | error e =>
        simp only [bookAppointment, hb, if_pos hl]
        rw [List.count_append]
        simp [hcount]
    · cases r with
      | ok res =>
        simp only [bookAppointment, hb, if_neg hl]
        simpa using hcount
      | error e =>
        simp only [bookAppointment, hb, if_neg hl]
        simpa using hcount

/-- Claim C3: whenever the try body of the booking flow ends in a thrown
error, the operation still returns an outcome -- success is false and the
message is "Booking error: " followed by the error details. -/
theorem booking_error_outcome (o : Oracle) (pd : PatientData) (e : Msg)
    (h : (bookTry o pd []).1 = Except.error e) :
    (bookAppointment o pd).1.success = false ∧
    (bookAppointment o pd).1.message = "Booking error: ".toList ++ e := by
  cases hb : bookTry o pd [] with
  | mk r tr =>
    rw [hb] at h
    cases r with
    | ok res => simp at h
    | error e2 =>
      have he : e2 = e := by simpa using h
      subst he
      refine ⟨?_, ?_⟩ <;> simp [bookAppointment, hb]

theorem booking_error_outcome_witness :
    (bookAppointment { allOkOracle with gotoErr := some "net down".toList }
      testPatient).1.success = false ∧
    (bookAppointment { allOkOracle with gotoErr := some "net down".toList }
      testPatient).1.message = "Booking error: net down".toList := by
  have h := booking_error_outcome { allOkOracle with gotoErr := some "net down".toList }
    testPatient "net down".toList rfl
  exact ⟨h.1, h.2.trans (by decide)⟩

/-! ### The phone verify-and-retry subroutine (claim C1) -/

def phoneEv : Ev → Bool
  | Ev.filled FormField.phone _ => true
  | Ev.readBack _ => true
  | _ => false

def phoneWriteVal : Ev → Option Msg
  | Ev.filled FormField.phone v => some v
  | _ => none

def phoneReadVal : Ev → Option Msg
  | Ev.readBack v => some v
  | _ => none

/-- The values written into the phone field, in order. -/
def phoneWrites (tr : List Ev) : List Msg := tr.filterMap phoneWriteVal

/-- The values read back from the phone field, in order. -/
def phoneReads (tr : List Ev) : List Msg := tr.filterMap phoneReadVal

theorem phoneWriteVal_eq_none {e : Ev} (h : phoneEv e = false) : phoneWriteVal e = none := by
  cases e with
  | filled f v =>
    cases f with
    | phone => simp [phoneEv] at h
    | firstName => rfl
    | lastName => rfl
    | email => rfl
    | date => rfl
  | readBack v => rfl
  | launched => rfl
  | navigated => rfl
  | selectedType v => rfl
  | clickedSlot l => rfl
  | clickedSubmit => rfl
  | closed => rfl

theorem phoneReadVal_eq_none {e : Ev} (h : phoneEv e = false) : phoneReadVal e = none := by
  cases e with
  | filled f v => rfl
  | readBack v => simp [phoneEv] at h
  | launched => rfl
  | navigated => rfl
  | selectedType v => rfl
  | clickedSlot l => rfl
  | clickedSubmit => rfl
  | closed => rfl

theorem phoneWrites_nil {l : List Ev} (h : ∀ e ∈ l, phoneEv e = false) :
    phoneWrites l = [] :=
  List.filterMap_eq_nil_iff.mpr (fun e he => phoneWriteVal_eq_none (h e he))

theorem phoneReads_nil {l : List Ev} (h : ∀ e ∈ l, phoneEv e = false) :
    phoneReads l = [] :=
  List.filterMap_eq_nil_iff.mpr (fun e he => phoneReadVal_eq_none (h e he))

/-- Successful run extending the trace only by events satisfying P. -/
def RunsOk (m : M Unit) (P : Ev → Prop) : Prop :=
  ∀ tr, ∃ ex, m tr = (Except.ok (), tr ++ ex) ∧ ∀ e ∈ ex, P e

theorem runsOk_pure (P : Ev → Prop) : RunsOk (pure ()) P :=
  fun tr => ⟨[], by simp [M_pure_apply], by simp⟩

theorem runsOk_bind {m k : M Unit} {P : Ev → Prop}
    (hm : RunsOk m P) (hk : RunsOk k P) : RunsOk (m >>= fun _ => k) P := by
  intro tr
  obtain ⟨ex1, h1, hp1⟩ := hm tr
  obtain ⟨ex2, h2, hp2⟩ := hk (tr ++ ex1)
  refine ⟨ex1 ++ ex2, ?_, ?_⟩
  · simp only [M_bind_apply, h1]
    rw [h2, List.append_assoc]
  · intro e he
    rcases List.mem_append.mp he with h | h
    · exact hp1 e h
    · exact hp2 e h

theorem runsOk_act {err : Option Msg} {e : Ev} {P : Ev → Prop}
    (herr : err = none) (hP : P e) : RunsOk (act err e) P := by
  intro tr
  subst herr
  exact ⟨[e], rfl, by simpa using hP⟩

theorem runsOk_actSilent {err : Option Msg} (P : Ev → Prop)
    (herr : err = none) : RunsOk (actSilent err) P := by
  intro tr
  subst herr
  exact ⟨[], by simp [actSilent], by simp⟩

theorem runsOk_ite {c : Prop} [Decidable c] {m1 m2 : M Unit} {P : Ev → Prop}
    (h1 : RunsOk m1 P) (h2 : RunsOk m2 P) : RunsOk (if c then m1 else m2) P := by
  by_cases hc : c
  · rw [if_pos hc]; exact h1
  · rw [if_neg hc]; exact h2

/-- The oracle lets the flow reach the phone block: every awaited step
before it succeeds. -/
def Oracle.reachesPhone (o : Oracle) : Prop :=
  o.launchErr = none ∧ o.newContextErr = none ∧ o.newPageErr = none ∧
  o.gotoErr = none ∧ o.selectErr = none ∧ o.fillFirstNameErr = none ∧
  o.fillLastNameErr = none

/-- The phone field is present and its own fills succeed. -/
def Oracle.phoneOk (o : Oracle) : Prop :=
  o.phonePresent = true ∧ o.phoneClearErr = none ∧ o.phoneFillErr = none ∧
  o.phoneClear2Err = none ∧ o.phoneFill2Err = none

theorem bookPrefix_ok (o : Oracle) (pd : PatientData) (h : o.reachesPhone) :
    RunsOk (bookPrefix o pd) (fun e => phoneEv e = false) := by
  obtain ⟨h1, h2, h3, h4, h5, h6, h7⟩ := h
  unfold bookPrefix
  refine runsOk_bind (runsOk_act h1 rfl) ?_
  refine runsOk_bind (runsOk_actSilent _ h2) ?_
  refine runsOk_bind (runsOk_actSilent _ h3) ?_
  refine runsOk_bind (runsOk_act h4 rfl) ?_
  refine runsOk_bind ?_ ?_
  · cases pd.appointmentType with
    | some k => exact runsOk_ite (runsOk_act h5 rfl) (runsOk_pure _)
    | none => exact runsOk_pure _
  · refine runsOk_bind (runsOk_ite (runsOk_act h6 rfl) (runsOk_pure _)) ?_
    exact runsOk_ite (runsOk_act h7 rfl) (runsOk_pure _)

/-- The exact event segment the phone block appends when the field is
present, its fills succeed and the read-back yields v. -/
def phoneSeg (n f v : Msg) : List Ev :=
  if v.length < n.length then
    [Ev.filled FormField.phone [], Ev.filled FormField.phone n, Ev.readBack v,
     Ev.filled FormField.phone [], Ev.filled FormField.phone f]
  else
    [Ev.filled FormField.phone [], Ev.filled FormField.phone n, Ev.readBack v]

theorem phoneStep_trace (o : Oracle) (n f v : Msg) (h : o.phoneOk)
    (hr : o.phoneRead = Except.ok v) (tr : List Ev) :
    phoneStep o n f tr = (Except.ok (), tr ++ phoneSeg n f v) := by
  obtain ⟨hp, h1, h2, h3, h4⟩ := h
  by_cases hlt : v.length < n.length
  · simp [phoneStep, phoneSeg, hp, h1, h2, h3, h4, hr, act, readPhoneStep,
      M_bind_apply, M_pure_apply, hlt]
  · simp [phoneStep, phoneSeg, hp, h1, h2, h3, h4, hr, act, readPhoneStep,
      M_bind_apply, M_pure_apply, hlt]

theorem phoneWrites_seg (n f v : Msg) :
    phoneWrites (phoneSeg n f v) =
      (if v.length < n.length then [[], n, [], f] else [[], n]) := by
  by_cases hlt : v.length < n.length
  · simp [phoneSeg, phoneWrites, phoneWriteVal, hlt]
  · simp [phoneSeg, phoneWrites, phoneWriteVal, hlt]

theorem phoneReads_seg (n f v : Msg) :
    phoneReads (phoneSeg n f v) = [v] := by
  by_cases hlt : v.length < n.length
  · simp [phoneSeg, phoneReads, phoneReadVal, hlt]
  · simp [phoneSeg, phoneReads, phoneReadVal, hlt]

theorem bookSuffix_noPhone (o : Oracle) (pd : PatientData) :
    EmitsOnly (bookSuffix o pd) (fun e => phoneEv e = false) :=
  emitsOnly_bookSuffix o pd (fun _ => rfl) (fun _ => rfl) (fun _ => rfl) rfl

theorem phoneReads_append (a b : List Ev) :
    phoneReads (a ++ b) = phoneReads a ++ phoneReads b := by
  simp [phoneReads, List.filterMap_append]

theorem phoneWrites_append (a b : List Ev) :
    phoneWrites (a ++ b) = phoneWrites a ++ phoneWrites b := by
  simp [phoneWrites, List.filterMap_append]

/-- Claim C1: when the flow reaches the phone field, fills it with the
canonical phone and reads back v, the whole booking run performs exactly
one read-back, and the writes into the phone field are exactly clear,
canonical phone, and -- only when v is strictly shorter than the canonical
phone -- one further clear followed by the formatted phone, with nothing
after that; when v is not shorter there is no retry write. -/
theorem booking_phone_retry (o : Oracle) (pd : PatientData) (v : Msg)
    (h1 : o.reachesPhone) (h2 : o.phoneOk) (hr : o.phoneRead = Except.ok v) :
    phoneReads (bookAppointment o pd).2 = [v] ∧
    phoneWrites (bookAppointment o pd).2 =
      (if v.length < (normalizePhone pd.phone).length
       then [[], normalizePhone pd.phone, [], formatPhone pd.phone]
       else [[], normalizePhone pd.phone]) := by
  obtain ⟨ex1, hpre, hp1⟩ := bookPrefix_ok o pd h1 []
  have hpre' : bookPrefix o pd [] = (Except.ok (), ex1) := by simpa using hpre
  have hps := phoneStep_trace o (normalizePhone pd.phone) (formatPhone pd.phone) v h2 hr ex1
  obtain ⟨ex2, hsuf, hp2⟩ := bookSuffix_noPhone o pd
    (ex1 ++ phoneSeg (normalizePhone pd.phone) (formatPhone pd.phone) v)
  have htr : (bookTry o pd []).2 =
      (ex1 ++ phoneSeg (normalizePhone pd.phone) (formatPhone pd.phone) v) ++ ex2 := by
    unfold bookTry
    simp only [M_bind_apply, hpre', hps]
    exact hsuf
  have hl : o.launchErr = none := h1.1
  have htrace : (bookAppointment o pd).2 =
      ((ex1 ++ phoneSeg (normalizePhone pd.phone) (formatPhone pd.phone) v) ++ ex2)
        ++ [Ev.closed] := by
    cases hb : bookTry o pd [] with
    | mk r tr =>
      have heq : tr = (ex1 ++ phoneSeg (normalizePhone pd.phone) (formatPhone pd.phone) v)
          ++ ex2 := by
        rw [hb] at htr; exact htr
      subst heq
      cases r with
      | ok res => simp [bookAppointment, hb, hl]
      | error e => simp [bookAppointment, hb, hl]
  constructor
  · rw [htrace, phoneReads_append, phoneReads_append, phoneReads_append,
      phoneReads_nil hp1, phoneReads_nil hp2, phoneReads_seg]
    rfl
  · rw [htrace, phoneWrites_append, phoneWrites_append, phoneWrites_append,
      phoneWrites_nil hp1, phoneWrites_nil hp2, phoneWrites_seg]
    by_cases hlt : v.length < (normalizePhone pd.phone).length
    · rw [if_pos hlt]; simp [phoneWrites, phoneWriteVal]
    · rw [if_neg hlt]; simp [phoneWrites, phoneWriteVal]

theorem booking_phone_retry_witness :
    phoneReads (bookAppointment allOkOracle testPatient).2 = ["480555".toList] ∧
    phoneWrites (bookAppointment allOkOracle testPatient).2 =
      [[], "4805551234".toList, [], "(480) 555-1234".toList] := by
  have h := booking_phone_retry allOkOracle testPatient "480555".toList
    ⟨rfl, rfl, rfl, rfl, rfl, rfl, rfl⟩ ⟨rfl, rfl, rfl, rfl, rfl⟩ rfl
  exact ⟨h.1, h.2.trans (by decide)⟩
